import Mathlib

/-!
Shallow embedding of the event registration / waitlist / payment logic of the
nareis backend (src/routes/events.ts, src/services/eventPaymentService.ts,
src/models/Event.ts, src/models/EventRegistration.ts, src/models/EventWaitlist.ts,
EventFeedback model in src/types/multer.d.ts).

The document database is modelled as explicit lists of rows for a single event
(all the modelled operations only ever touch rows of one `eventId`).  The
`Event` document is read but never written by these operations, so it is passed
as an ambient `Option Event` ("findById 'returned' this").  Timestamps are
natural numbers (milliseconds).  JavaScript truthiness of optional numbers
(`event.maxAttendees && ...`) is modelled explicitly: `some 0` is falsy.
-/

namespace Nareis

/-- `status` enum of EventRegistration (src/models/EventRegistration.ts). -/
inductive RegStatus
  | registered
  | attended
  | cancelled
  | pending
deriving DecidableEq, Repr

/-- `paymentStatus` enum of EventRegistration. -/
inductive PayStatus
  | pending
  | completed
  | refunded
  | failed
  | notRequired
deriving DecidableEq, Repr

/-- `registrationType` enum of EventRegistration. -/
inductive RegType
  | regular
  | waitlist
  | guest
deriving DecidableEq, Repr

/-- `status` enum of EventWaitlist (src/models/EventWaitlist.ts). -/
inductive WStatus
  | waiting
  | offered
  | accepted
  | declined
  | expired
deriving DecidableEq, Repr

/-- `status` enum of Event (src/models/Event.ts). -/
inductive EvStatus
  | upcoming
  | ongoing
  | completed
  | cancelled
deriving DecidableEq, Repr

/-- `role` enum of User. -/
inductive Role
  | member
  | admin
deriving DecidableEq, Repr

/-- EventRegistration row (fields the modelled operations read or write). -/
structure Registration where
  userId : Nat
  registrationDate : Nat
  status : RegStatus
  registrationType : RegType
  numberOfGuests : Nat
  paymentStatus : PayStatus
  paymentAmount : Option Nat
  stripePaymentIntentId : Option Nat
  paidAt : Option Nat
  checkedIn : Bool
  cancelledAt : Option Nat
  cancellationReason : Option String
  refundAmount : Option Nat
  refundedAt : Option Nat
deriving DecidableEq, Repr

/-- EventWaitlist row. -/
structure WEntry where
  userId : Nat
  position : Nat
  joinedAt : Nat
  notified : Bool
  notifiedAt : Option Nat
  status : WStatus
  expiresAt : Option Nat
deriving DecidableEq, Repr

/-- EventFeedback row (fields the feedback route reads or writes). -/
structure Feedback where
  userId : Nat
  rating : Nat
  approved : Bool
deriving DecidableEq, Repr

/-- Event document (fields the modelled operations read). -/
structure Event where
  status : EvStatus
  startDate : Nat
  endDate : Option Nat
  maxAttendees : Option Nat
  registrationDeadline : Option Nat
  isFree : Bool
  price : Option Nat
  memberOnly : Bool
  waitlistEnabled : Bool
  waitlistCapacity : Option Nat
  requiresApproval : Bool
  cancellationDeadline : Option Nat
deriving DecidableEq, Repr

/-- The rows of the three per-event collections. -/
structure State where
  regs : List Registration
  waitlist : List WEntry
  feedback : List Feedback
deriving DecidableEq, Repr

/-- JavaScript truthiness of an optional number: `undefined` and `0` are falsy
(`event.maxAttendees && ...`, `event.waitlistCapacity && ...`). -/
def optTruthy : Option Nat → Bool
  | none => false
  | some n => decide (n ≠ 0)

/-- `deadline && new Date() > deadline` for an optional Date (a Date object is
always truthy). -/
def pastDeadline (d? : Option Nat) (now : Nat) : Bool :=
  match d? with
  | none => false
  | some d => decide (d < now)

/-- `maxAttendees && current >= maxAttendees` (capacity saturated). -/
def atCapacity (m? : Option Nat) (count : Nat) : Bool :=
  match m? with
  | none => false
  | some m => decide (m ≠ 0 ∧ m ≤ count)

/-- Replace the first list element satisfying `p` by its image under `f`
(a mongoose `save()` of a document obtained from `findOne`). -/
def updateFirst (p : α → Bool) (f : α → α) : List α → List α
  | [] => []
  | x :: xs => if p x then f x :: xs else x :: updateFirst p f xs

/-- Remove the first list element satisfying `p` (`deleteOne` by `_id` of a
document obtained from `findOne`). -/
def eraseFirst (p : α → Bool) : List α → List α
  | [] => []
  | x :: xs => if p x then xs else x :: eraseFirst p xs

/-- `updateMany({ eventId, position: { $gt: p }, status: 'waiting' },
{ $inc: { position: -1 } })` applied to one row. -/
def shiftDown (p : Nat) (x : WEntry) : WEntry :=
  if p < x.position ∧ x.status = WStatus.waiting then
    { x with position := x.position - 1 }
  else x

/-- Query predicate `{ status: 'registered' }` on a registration row. -/
def isRegistered (r : Registration) : Bool :=
  decide (r.status = RegStatus.registered)

/-- Query predicate `{ status: 'waiting' }` on a waitlist row. -/
def isWaiting (w : WEntry) : Bool :=
  decide (w.status = WStatus.waiting)

/-- Query predicate `{ eventId, userId }` on a registration row. -/
def byUser (uid : Nat) (r : Registration) : Bool :=
  decide (r.userId = uid)

/-- Query predicate `{ eventId, userId, status: 'registered' }`. -/
def registeredUser (uid : Nat) (r : Registration) : Bool :=
  decide (r.userId = uid ∧ r.status = RegStatus.registered)

/-- Query predicate `{ stripePaymentIntentId: pid }`. -/
def intentOf (pid : Nat) (r : Registration) : Bool :=
  decide (r.stripePaymentIntentId = some pid)

/-- Query predicate `{ eventId, userId, checkedIn: true }`. -/
def checkedInUser (uid : Nat) (r : Registration) : Bool :=
  decide (r.userId = uid ∧ r.checkedIn = true)

/-- Query predicate `{ eventId, userId }` on a waitlist row. -/
def waitRowOf (uid : Nat) (w : WEntry) : Bool :=
  decide (w.userId = uid)

/-- Query predicate `{ eventId, userId, status: 'waiting' }`. -/
def waitingOf (uid : Nat) (w : WEntry) : Bool :=
  decide (w.userId = uid ∧ w.status = WStatus.waiting)

/-- Query predicate `{ eventId, userId, status: 'offered' }`. -/
def offeredOf (uid : Nat) (w : WEntry) : Bool :=
  decide (w.userId = uid ∧ w.status = WStatus.offered)

/-- Query predicate `{ eventId, userId }` on a feedback row. -/
def feedbackOf (uid : Nat) (f : Feedback) : Bool :=
  decide (f.userId = uid)

/-- `EventRegistration.countDocuments({ eventId, status: 'registered' })`. -/
def countRegistered (s : State) : Nat :=
  (s.regs.filter isRegistered).length

/-- `EventWaitlist.countDocuments({ eventId, status: 'waiting' })`. -/
def countWaiting (s : State) : Nat :=
  (s.waitlist.filter isWaiting).length

/-- Error messages thrown by the services / returned by the routes. -/
inductive Err
  | eventNotFound
  | waitlistNotEnabled
  | alreadyOnWaitlist
  | alreadyRegisteredForEvent
  | waitlistFull
  | notOnWaitlist
  | userNotOnWaitlist
  | eventStillFull
  | noActiveOffer
  | offerExpired
  | eventFull
  | paymentNotSuccessful
  | registrationNotFound
  | noCompletedPayment
  | noPaymentIntent
  | pastCancellationDeadline
  | invalidRefundAmount
  | stripeRefundFailed
  | duplicateRegistration
deriving DecidableEq, Repr

/-- `calculateEventStatus` (src/routes/events.ts lines 445-464).  The computed
display status of an event; `endDate` defaults to `startDate` + 24h.
`updateAutoStatus` (src/models/Event.ts lines 154-173) has the same logic. -/
def calculateEventStatus (status : EvStatus) (startDate : Nat)
    (endDate : Option Nat) (now : Nat) : EvStatus :=
  if status = EvStatus.cancelled then
    EvStatus.cancelled
  else
    let endD := endDate.getD (startDate + 24 * 60 * 60 * 1000)
    if now < startDate then
      EvStatus.upcoming
    else if startDate ≤ now ∧ now ≤ endD then
      EvStatus.ongoing
    else if endD < now then
      EvStatus.completed
    else
      status

/-- `WaitlistService.joinWaitlist` (src/services/eventPaymentService.ts lines
200-241).  On success returns the updated state and the new entry. -/
def joinWaitlist (uid : Nat) (now : Nat) (ev? : Option Event) (s : State) :
    Except Err (State × WEntry) :=
  match ev? with
  | none => Except.error Err.eventNotFound
  | some ev =>
    if ¬ ev.waitlistEnabled then
      Except.error Err.waitlistNotEnabled
    else
      match s.waitlist.find? (waitRowOf uid) with
      | some _ => Except.error Err.alreadyOnWaitlist
      | none =>
        match s.regs.find? (registeredUser uid) with
        | some _ => Except.error Err.alreadyRegisteredForEvent
        | none =>
          let currentCount := countWaiting s
          if atCapacity ev.waitlistCapacity currentCount then
            Except.error Err.waitlistFull
          else
            let entry : WEntry :=
              { userId := uid
                position := currentCount + 1
                joinedAt := now
                notified := false
                notifiedAt := none
                status := WStatus.waiting
                expiresAt := none }
            Except.ok ({ s with waitlist := s.waitlist ++ [entry] }, entry)

/-- `WaitlistService.leaveWaitlist` (lines 246-263): delete the caller's
`waiting` row and decrement the position of later `waiting` rows. -/
def leaveWaitlist (uid : Nat) (s : State) : Except Err State :=
  match s.waitlist.find? (waitingOf uid) with
  | none => Except.error Err.notOnWaitlist
  | some w =>
    let removed := eraseFirst (waitingOf uid) s.waitlist
    let renumbered := removed.map (shiftDown w.position)
    Except.ok { s with waitlist := renumbered }

/-- `WaitlistService.promoteFromWaitlist` (lines 279-310): turn the user's
`waiting` row into a 24-hour `offered` row, after re-checking capacity. -/
def promoteFromWaitlist (uid : Nat) (now : Nat) (ev? : Option Event)
    (s : State) : Except Err State :=
  match s.waitlist.find? (waitingOf uid) with
  | none => Except.error Err.userNotOnWaitlist
  | some _ =>
    match ev? with
    | none => Except.error Err.eventNotFound
    | some ev =>
      if atCapacity ev.maxAttendees (countRegistered s) then
        Except.error Err.eventStillFull
      else
        let wl := updateFirst (waitingOf uid)
          (fun w =>
            { w with status := WStatus.offered, notified := true,
                     notifiedAt := some now,
                     expiresAt := some (now + 24 * 60 * 60 * 1000) })
          s.waitlist
        Except.ok { s with waitlist := wl }

/-- The `new EventRegistration({ eventId, userId, registrationType: 'waitlist',
paymentStatus: ... })` built by `acceptOffer` — every other field takes its
schema default (status defaults to 'registered'). -/
def newWaitlistRegistration (uid now : Nat) (ev : Event) : Registration :=
  { userId := uid
    registrationDate := now
    status := RegStatus.registered
    registrationType := RegType.waitlist
    numberOfGuests := 0
    paymentStatus :=
      if ev.isFree then PayStatus.notRequired else PayStatus.pending
    paymentAmount := none
    stripePaymentIntentId := none
    paidAt := none
    checkedIn := false
    cancelledAt := none
    cancellationReason := none
    refundAmount := none
    refundedAt := none }

/-- `WaitlistService.acceptOffer` (lines 315-366).  Note the expiry branch
mutates the waitlist row before throwing, so the state is returned in every
case alongside an `Except` result.  The `registration.save()` at line 352 is
an insert into EventRegistration, whose unique `{ eventId: 1, userId: 1 }`
index (src/models/EventRegistration.ts line 165) makes it throw a
duplicate-key error whenever the user already holds ANY registration row for
the event (for instance a cancelled one): the service does not catch it, so
nothing is created and the waitlist row stays `offered`. -/
def acceptOffer (uid : Nat) (now : Nat) (ev? : Option Event) (s : State) :
    Except Err Registration × State :=
  match s.waitlist.find? (offeredOf uid) with
  | none => (Except.error Err.noActiveOffer, s)
  | some w =>
    if pastDeadline w.expiresAt now then
      let wl := updateFirst (offeredOf uid)
        (fun x => { x with status := WStatus.expired }) s.waitlist
      (Except.error Err.offerExpired, { s with waitlist := wl })
    else
      match ev? with
      | none => (Except.error Err.eventNotFound, s)
      | some ev =>
        if atCapacity ev.maxAttendees (countRegistered s) then
          (Except.error Err.eventFull, s)
        else
          match s.regs.find? (byUser uid) with
          | some _ => (Except.error Err.duplicateRegistration, s)
          | none =>
            let reg := newWaitlistRegistration uid now ev
            let accepted := updateFirst (offeredOf uid)
              (fun x => { x with status := WStatus.accepted }) s.waitlist
            let renumbered := accepted.map (shiftDown w.position)
            (Except.ok reg,
              { s with regs := s.regs ++ [reg], waitlist := renumbered })

/-- `EventPaymentService.confirmPayment` (lines 78-104).  The Stripe
`paymentIntents.retrieve` call is external; `intentSucceeded` says whether the
retrieved intent has status `succeeded`. -/
def confirmPayment (pid : Nat) (intentSucceeded : Bool) (now : Nat)
    (s : State) : Except Err (State × Registration) :=
  if ¬ intentSucceeded then
    Except.error Err.paymentNotSuccessful
  else
    match s.regs.find? (intentOf pid) with
    | none => Except.error Err.registrationNotFound
    | some r =>
      if r.paymentStatus = PayStatus.completed then
        Except.ok (s, r)
      else
        let r' := { r with paymentStatus := PayStatus.completed,
                           paidAt := some now,
                           status := RegStatus.registered }
        let rs := updateFirst (intentOf pid) (fun _ => r') s.regs
        Except.ok ({ s with regs := rs }, r')

/-- `EventPaymentService.processRefund` (lines 109-167), applied to the stored
registration row `r`.  `stripeOk` says whether the external
`stripe.refunds.create` call succeeds.  Returns the updated row. -/
def processRefund (r : Registration) (refundAmount : Option Nat) (now : Nat)
    (stripeOk : Bool) (ev? : Option Event) : Except Err Registration :=
  if ¬ r.paymentStatus = PayStatus.completed then
    Except.error Err.noCompletedPayment
  else if r.stripePaymentIntentId = none then
    Except.error Err.noPaymentIntent
  else
    match ev? with
    | none => Except.error Err.eventNotFound
    | some ev =>
      if pastDeadline ev.cancellationDeadline now then
        Except.error Err.pastCancellationDeadline
      else
        let amountToRefund :=
          if optTruthy refundAmount then refundAmount.getD 0
          else r.paymentAmount.getD 0
        if amountToRefund = 0 then
          Except.error Err.invalidRefundAmount
        else if ¬ stripeOk then
          Except.error Err.stripeRefundFailed
        else
          Except.ok { r with paymentStatus := PayStatus.refunded,
                             refundAmount := some amountToRefund,
                             refundedAt := some now }

/-- Outcome of `POST /:id/register` (src/routes/events.ts lines 907-1041),
one constructor per response branch. -/
inductive RegisterResult
  | eventNotFound
  | notOpen
  | membersOnly
  | deadlinePassed
  | reactivated (status : RegStatus)
  | alreadyRegistered
  | waitlisted (position : Nat)
  | waitlistError (e : Err)
  | fullNoWaitlist
  | created (status : RegStatus)
deriving DecidableEq, Repr

/-- HTTP status code of each `POST /:id/register` response branch. -/
def RegisterResult.httpStatus : RegisterResult → Nat
  | eventNotFound => 404
  | notOpen => 400
  | membersOnly => 403
  | deadlinePassed => 400
  | reactivated _ => 200
  | alreadyRegistered => 400
  | waitlisted _ => 200
  | waitlistError _ => 400
  | fullNoWaitlist => 400
  | created _ => 201

/-- `POST /:id/register` (src/routes/events.ts lines 907-1041). -/
def registerForEvent (uid : Nat) (role : Role) (guests : Nat) (now : Nat)
    (ev? : Option Event) (s : State) : RegisterResult × State :=
  match ev? with
  | none => (RegisterResult.eventNotFound, s)
  | some ev =>
    if ev.status = EvStatus.completed ∨ ev.status = EvStatus.cancelled then
      (RegisterResult.notOpen, s)
    else if ev.memberOnly ∧ role ≠ Role.member ∧ role ≠ Role.admin then
      (RegisterResult.membersOnly, s)
    else if pastDeadline ev.registrationDeadline now then
      (RegisterResult.deadlinePassed, s)
    else
      match s.regs.find? (byUser uid) with
      | some r =>
        if r.status = RegStatus.cancelled then
          let st := if ev.requiresApproval then RegStatus.pending
                    else RegStatus.registered
          let rs := updateFirst (byUser uid)
            (fun x =>
              { x with status := st, registrationDate := now,
                       cancelledAt := none, cancellationReason := none })
            s.regs
          (RegisterResult.reactivated st, { s with regs := rs })
        else
          (RegisterResult.alreadyRegistered, s)
      | none =>
        if atCapacity ev.maxAttendees (countRegistered s) then
          if ev.waitlistEnabled then
            match joinWaitlist uid now ev? s with
            | Except.ok (s', e) => (RegisterResult.waitlisted e.position, s')
            | Except.error e => (RegisterResult.waitlistError e, s)
          else
            (RegisterResult.fullNoWaitlist, s)
        else
          let reg : Registration :=
            { userId := uid
              registrationDate := now
              status := if ev.requiresApproval then RegStatus.pending
                        else RegStatus.registered
              registrationType := RegType.regular
              numberOfGuests := guests
              paymentStatus :=
                if ev.isFree then PayStatus.notRequired else PayStatus.pending
              paymentAmount := ev.price
              stripePaymentIntentId := none
              paidAt := none
              checkedIn := false
              cancelledAt := none
              cancellationReason := none
              refundAmount := none
              refundedAt := none }
          (RegisterResult.created reg.status, { s with regs := s.regs ++ [reg] })

/-- Outcome of `DELETE /:id/register` (src/routes/events.ts lines 1044-1115). -/
inductive CancelResult
  | registrationNotFound
  | eventNotFound
  | cancelledOk (refundProcessed : Bool)
deriving DecidableEq, Repr

/-- HTTP status code of each `DELETE /:id/register` response branch. -/
def CancelResult.httpStatus : CancelResult → Nat
  | registrationNotFound => 404
  | eventNotFound => 404
  | cancelledOk _ => 200

/-- `findOne({ eventId, status: 'waiting' }).sort({ position: 1 })`: the
`waiting` entry with the least position (first in list order on ties). -/
def minWaiting (l : List WEntry) : Option WEntry :=
  (l.filter isWaiting).foldl
    (fun best w =>
      match best with
      | none => some w
      | some b => if w.position < b.position then some w else some b)
    none

/-- The try/catch around `EventPaymentService.processRefund` in the cancel
handler (src/routes/events.ts lines 1070-1084): attempted only when the
payment is completed and an intent id exists; a thrown refund error is
swallowed (`none`). -/
def refundAttempt (reg : Registration) (now : Nat) (stripeOk : Bool)
    (ev? : Option Event) : Option Registration :=
  if reg.paymentStatus = PayStatus.completed ∧
      reg.stripePaymentIntentId ≠ none then
    match processRefund reg none now stripeOk ev? with
    | Except.ok r' => some r'
    | Except.error _ => none
  else none

/-- The waitlist promotion at the end of the cancel handler (src/routes/events.ts
lines 1088-1102): promote the first `waiting` entry, swallowing errors. -/
def promoteNext (now : Nat) (ev : Event) (s1 : State) : State :=
  if ev.waitlistEnabled then
    match minWaiting s1.waitlist with
    | some nextInLine =>
      match promoteFromWaitlist nextInLine.userId now (some ev) s1 with
      | Except.ok s' => s'
      | Except.error _ => s1
    | none => s1
  else s1

/-- `DELETE /:id/register` (src/routes/events.ts lines 1044-1115).  The refund
attempt and the waitlist promotion are wrapped in try/catch: their failures are
swallowed.  `stripeOk` is the outcome of the external Stripe refund call. -/
def cancelRegistration (uid : Nat) (reason : Option String) (now : Nat)
    (stripeOk : Bool) (ev? : Option Event) (s : State) : CancelResult × State :=
  match s.regs.find? (registeredUser uid) with
  | none => (CancelResult.registrationNotFound, s)
  | some reg =>
    match ev? with
    | none => (CancelResult.eventNotFound, s)
    | some ev =>
      let refundResult := refundAttempt reg now stripeOk ev?
      let refundProcessed := refundResult.isSome
      let base := refundResult.getD reg
      let cancelledReg :=
        { base with status := RegStatus.cancelled, cancelledAt := some now,
                    cancellationReason := reason }
      let rs := updateFirst (registeredUser uid) (fun _ => cancelledReg) s.regs
      let s1 : State := { s with regs := rs }
      (CancelResult.cancelledOk refundProcessed, promoteNext now ev s1)

/-- Outcome of `POST /:id/feedback` (src/routes/events.ts lines 1426-1484). -/
inductive FeedbackResult
  | invalidRating
  | notCheckedIn
  | alreadySubmitted
  | created
deriving DecidableEq, Repr

/-- HTTP status code of each `POST /:id/feedback` response branch. -/
def FeedbackResult.httpStatus : FeedbackResult → Nat
  | invalidRating => 400
  | notCheckedIn => 403
  | alreadySubmitted => 400
  | created => 201

/-- `POST /:id/feedback` (src/routes/events.ts lines 1426-1484).  `!rating`
makes a rating of 0 invalid, as does anything outside 1..5. -/
def submitFeedback (uid : Nat) (rating : Nat) (s : State) :
    FeedbackResult × State :=
  if rating = 0 ∨ rating < 1 ∨ 5 < rating then
    (FeedbackResult.invalidRating, s)
  else
    match s.regs.find? (checkedInUser uid) with
    | none => (FeedbackResult.notCheckedIn, s)
    | some _ =>
      match s.feedback.find? (feedbackOf uid) with
      | some _ => (FeedbackResult.alreadySubmitted, s)
      | none =>
        let fb : Feedback := { userId := uid, rating := rating, approved := true }
        (FeedbackResult.created, { s with feedback := s.feedback ++ [fb] })

/-- One public operation on the per-event collections, with its request
parameters and the outcomes of the external calls it makes. -/
inductive Op
  | register (uid : Nat) (role : Role) (guests : Nat) (now : Nat)
  | cancel (uid : Nat) (stripeOk : Bool) (now : Nat)
  | confirm (pid : Nat) (intentSucceeded : Bool) (now : Nat)
  | join (uid : Nat) (now : Nat)
  | leave (uid : Nat)
  | promote (uid : Nat) (now : Nat)
  | accept (uid : Nat) (now : Nat)
deriving DecidableEq, Repr

/-- Apply one operation to the state, discarding the response (errors leave the
state as the handler leaves it). -/
def applyOp (ev? : Option Event) (s : State) : Op → State
  | Op.register uid role guests now => (registerForEvent uid role guests now ev? s).2
  | Op.cancel uid stripeOk now => (cancelRegistration uid none now stripeOk ev? s).2
  | Op.confirm pid intentSucceeded now =>
    match confirmPayment pid intentSucceeded now s with
    | Except.ok (s', _) => s'
    | Except.error _ => s
  | Op.join uid now =>
    match joinWaitlist uid now ev? s with
    | Except.ok (s', _) => s'
    | Except.error _ => s
  | Op.leave uid =>
    match leaveWaitlist uid s with
    | Except.ok s' => s'
    | Except.error _ => s
  | Op.promote uid now =>
    match promoteFromWaitlist uid now ev? s with
    | Except.ok s' => s'
    | Except.error _ => s
  | Op.accept uid now => (acceptOffer uid now ev? s).2

/-! ## Spec-side definitions (written from the spec's words, for comparison) -/

/-- The spec's description of the computed event status: `cancelled` if
manually set so, else `upcoming` / `ongoing` / `completed` per the current
time against the interval from `startDate` to the effective end date. -/
def specComputedStatus (cancelledFlag : Bool) (startDate effectiveEnd now : Nat) :
    EvStatus :=
  if cancelledFlag then EvStatus.cancelled
  else if now < startDate then EvStatus.upcoming
  else if startDate ≤ now ∧ now ≤ effectiveEnd then EvStatus.ongoing
  else EvStatus.completed

/-- Amended failure condition of `joinWaitlist`: no event, waitlist disabled,
the user holds ANY waitlist row (whatever its status), the user holds a
registration with status `registered`, or a positive `waitlistCapacity` is
already reached by the `waiting` count. -/
def joinRejected (ev? : Option Event) (uid : Nat) (s : State) : Bool :=
  match ev? with
  | none => true
  | some ev =>
    !ev.waitlistEnabled ||
    s.waitlist.any (waitRowOf uid) ||
    s.regs.any (registeredUser uid) ||
    (match ev.waitlistCapacity with
     | some c => decide (c ≠ 0 ∧ c ≤ countWaiting s)
     | none => false)

/-! ## Concrete sample rows and states (used in counterexamples/witnesses) -/

/-- A registration row with the given user and status, all other fields at
their schema defaults. -/
def mkReg (uid : Nat) (st : RegStatus) : Registration :=
  { userId := uid
    registrationDate := 0
    status := st
    registrationType := RegType.regular
    numberOfGuests := 0
    paymentStatus := PayStatus.notRequired
    paymentAmount := none
    stripePaymentIntentId := none
    paidAt := none
    checkedIn := false
    cancelledAt := none
    cancellationReason := none
    refundAmount := none
    refundedAt := none }

/-- A waitlist row with the given user, position and status. -/
def mkWe (uid pos : Nat) (st : WStatus) : WEntry :=
  { userId := uid
    position := pos
    joinedAt := 0
    notified := false
    notifiedAt := none
    status := st
    expiresAt := none }

/-- A baseline upcoming free event with no limits. -/
def mkEvent : Event :=
  { status := EvStatus.upcoming
    startDate := 1000
    endDate := none
    maxAttendees := none
    registrationDeadline := none
    isFree := true
    price := none
    memberOnly := false
    waitlistEnabled := false
    waitlistCapacity := none
    requiresApproval := false
    cancellationDeadline := none }

/-- Event with one seat and no waitlist. -/
def evC1 : Event := { mkEvent with maxAttendees := some 1 }

/-- User 2 is registered; user 1 holds a cancelled registration. -/
def sC1 : State :=
  { regs := [mkReg 2 RegStatus.registered, mkReg 1 RegStatus.cancelled]
    waitlist := []
    feedback := [] }

/-- Event with waitlist enabled and no capacity limits. -/
def evW : Event := { mkEvent with waitlistEnabled := true }

/-- The empty collections. -/
def sEmpty : State := { regs := [], waitlist := [], feedback := [] }

/-- User 1 holds a `declined` (dead) waitlist row and nothing else. -/
def sDeclined : State :=
  { regs := [], waitlist := [mkWe 1 1 WStatus.declined], feedback := [] }

/-- A paid (non-free) event without approval requirement. -/
def evPaid : Event := { mkEvent with isFree := false, price := some 50 }

/-- Full one-seat event with waitlist enabled. -/
def evC7 : Event :=
  { mkEvent with maxAttendees := some 1, waitlistEnabled := true }

/-- User 2 fills the only seat; user 1 is already on the waitlist. -/
def sC7 : State :=
  { regs := [mkReg 2 RegStatus.registered]
    waitlist := [mkWe 1 1 WStatus.waiting]
    feedback := [] }

/-- Full one-seat event (user 2 registered) where user 1 is NOT yet on the
waitlist. -/
def sC7b : State :=
  { regs := [mkReg 2 RegStatus.registered]
    waitlist := []
    feedback := [] }

/-- Two-seat event for the acceptOffer witness. -/
def evC5 : Event := { mkEvent with maxAttendees := some 2, waitlistEnabled := true }

/-- User 1 holds an offered waitlist row expiring at time 100. -/
def sC5 : State :=
  { regs := []
    waitlist := [{ mkWe 1 1 WStatus.offered with expiresAt := some 100 }]
    feedback := [] }

/-- User 1 holds a live offered waitlist row AND a leftover cancelled
registration row (reachable via register, cancel, join waitlist, promote). -/
def sC5dup : State :=
  { regs := [mkReg 1 RegStatus.cancelled]
    waitlist := [{ mkWe 1 1 WStatus.offered with expiresAt := some 100 }]
    feedback := [] }

/-- User 1 is checked in; no feedback yet. -/
def sC8 : State :=
  { regs := [{ mkReg 1 RegStatus.attended with checkedIn := true }]
    waitlist := []
    feedback := [] }

/-- User 1 holds a completed, paid-for `registered` registration. -/
def sC9 : State :=
  { regs := [{ mkReg 1 RegStatus.registered with
               paymentStatus := PayStatus.completed,
               paymentAmount := some 50,
               stripePaymentIntentId := some 11 }]
    waitlist := []
    feedback := [] }

/-- User 1 holds a pending paid registration tied to payment intent 11. -/
def sC10 : State :=
  { regs := [{ mkReg 1 RegStatus.pending with
               paymentStatus := PayStatus.pending,
               paymentAmount := some 50,
               stripePaymentIntentId := some 11 }]
    waitlist := []
    feedback := [] }

/-- The registration of `sC10` after its payment is confirmed at time 500. -/
def rC10' : Registration :=
  { mkReg 1 RegStatus.registered with
    paymentStatus := PayStatus.completed,
    paymentAmount := some 50,
    stripePaymentIntentId := some 11,
    paidAt := some 500 }

/-- The state of `sC10` after its payment is confirmed at time 500. -/
def sC10' : State := { regs := [rC10'], waitlist := [], feedback := [] }

/-! ## Trace machinery for the two state invariants -/

/-- The safety side condition of the amended C1 on one operation: the
operation is one of those named by the claim (register / confirm payment /
accept offer), the register step does not reactivate a cancelled registration,
and the confirm step does not flip a non-`registered` row (both paths bypass
the capacity check). -/
def c1SafeOp (s : State) : Op → Bool
  | Op.register uid _ _ _ =>
    match s.regs.find? (byUser uid) with
    | some r => decide (r.status ≠ RegStatus.cancelled)
    | none => true
  | Op.confirm pid _ _ =>
    match s.regs.find? (intentOf pid) with
    | some r => decide (r.status = RegStatus.registered ∨
                        r.paymentStatus = PayStatus.completed)
    | none => true
  | Op.accept _ _ => true
  | _ => false

/-- A trace of claim-C1 operations, each safe in its pre-state. -/
def c1Trace (ev? : Option Event) (s : State) : List Op → Bool
  | [] => true
  | op :: ops => c1SafeOp s op && c1Trace ev? (applyOp ev? s op) ops

/-- The waitlist operations of the amended C2: join and leave. -/
def c2Op : Op → Bool
  | Op.join _ _ => true
  | Op.leave _ => true
  | _ => false

/-- The positions of the `waiting` rows, in list order. -/
def posList (s : State) : List Nat :=
  (s.waitlist.filter isWaiting).map WEntry.position

/-- The contiguity invariant of the spec: the multiset of `waiting` positions
is exactly {1..count}. -/
def contiguous (s : State) : Prop :=
  (posList s).Perm (List.range' 1 (posList s).length)

instance contiguousDecidable (s : State) : Decidable (contiguous s) :=
  List.decidablePerm _ _

end Nareis

namespace Nareis

/-! ## General helper lemmas about the list primitives -/

/-- The element found by `find?` lands (under `f`) in `updateFirst p f`. -/
theorem mem_updateFirst_of_find? {p : α → Bool} {f : α → α} {l : List α} {x : α}
    (h : l.find? p = some x) : f x ∈ updateFirst p f l := by
  induction l with
  | nil => simp [List.find?] at h
  | cons a l ih =>
    by_cases hp : p a
    · rw [List.find?_cons_of_pos _ hp] at h
      cases h
      simp [updateFirst, hp]
    · rw [List.find?_cons_of_neg _ hp] at h
      simp [updateFirst, hp, ih h]

/-- After `updateFirst p f`, `find? p` returns `f x` provided `p (f x)`. -/
theorem find?_updateFirst_self (f : α → α) {p : α → Bool} {l : List α} {x : α}
    (h : l.find? p = some x) (hfx : p (f x) = true) :
    (updateFirst p f l).find? p = some (f x) := by
  induction l with
  | nil => simp [List.find?] at h
  | cons a l ih =>
    by_cases hp : p a
    · rw [List.find?_cons_of_pos _ hp] at h
      cases h
      simp [updateFirst, hp, List.find?_cons_of_pos _ hfx]
    · rw [List.find?_cons_of_neg _ hp] at h
      simp [updateFirst, hp, List.find?_cons_of_neg _ hp, ih h]

/-- `updateFirst` keeps the length of a `filter` when the update does not
change whether the found element passes the filter. -/
theorem length_filter_updateFirst (q : α → Bool) (f : α → α) {p : α → Bool}
    {l : List α} {x : α} (h : l.find? p = some x) (hq : q (f x) = q x) :
    ((updateFirst p f l).filter q).length = (l.filter q).length := by
  induction l with
  | nil => simp [List.find?] at h
  | cons a l ih =>
    by_cases hp : p a
    · rw [List.find?_cons_of_pos _ hp] at h
      cases h
      by_cases hqa : q x
      · simp [updateFirst, hp, List.filter_cons, hqa, hq ▸ hqa, hq, hqa]
      · simp only [Bool.not_eq_true] at hqa
        simp [updateFirst, hp, List.filter_cons, hqa, hq, hq ▸ hqa]
    · rw [List.find?_cons_of_neg _ hp] at h
      by_cases hqa : q a
      · simp [updateFirst, hp, List.filter_cons, hqa, ih h]
      · simp only [Bool.not_eq_true] at hqa
        simp [updateFirst, hp, List.filter_cons, hqa, ih h]

/-- Decomposition of a successful `find?`: the list splits around the found
element and `eraseFirst` removes exactly it. -/
theorem eraseFirst_decomp {p : α → Bool} {l : List α} {x : α}
    (h : l.find? p = some x) :
    ∃ l₁ l₂, l = l₁ ++ x :: l₂ ∧ (∀ y ∈ l₁, p y = false) ∧
      eraseFirst p l = l₁ ++ l₂ := by
  induction l with
  | nil => simp [List.find?] at h
  | cons a l ih =>
    by_cases hp : p a
    · rw [List.find?_cons_of_pos _ hp] at h
      cases h
      exact ⟨[], l, by simp [eraseFirst, hp]⟩
    · rw [List.find?_cons_of_neg _ hp] at h
      obtain ⟨l₁, l₂, hdec, hall, herase⟩ := ih h
      refine ⟨a :: l₁, l₂, by simp [hdec], ?_, by simp [eraseFirst, hp, herase]⟩
      intro y hy
      rcases List.mem_cons.mp hy with rfl | hy
      · simpa using hp
      · exact hall y hy

/-- `filter` commutes with a `map` that does not change the filtered field. -/
theorem filter_map_of_preserve {q : α → Bool} {f : α → α}
    (hf : ∀ a, q (f a) = q a) (l : List α) :
    (l.map f).filter q = (l.filter q).map f := by
  induction l with
  | nil => rfl
  | cons a l ih =>
    by_cases hqa : q a
    · simp [List.filter_cons, hqa, hf, ih]
    · simp only [Bool.not_eq_true] at hqa
      simp [List.filter_cons, hqa, hf, ih]

/-- Shifting `range' (s+1) n` down by one gives `range' s n`. -/
theorem map_sub_one_range' : ∀ (n s : Nat),
    (List.range' (s + 1) n).map (fun q => q - 1) = List.range' s n := by
  intro n
  induction n with
  | zero => intro s; simp
  | succ n ih =>
    intro s
    rw [List.range'_succ, List.range'_succ]
    simp [ih (s + 1)]

/-- Removing `p` from `range' s n` and closing the gap yields `range' s (n-1)`. -/
theorem erase_map_range' : ∀ (n s p : Nat), s ≤ p → p < s + n →
    ((List.range' s n).erase p).map (fun q => if p < q then q - 1 else q) =
      List.range' s (n - 1) := by
  intro n
  induction n with
  | zero => intro s p h1 h2; omega
  | succ n ih =>
    intro s p h1 h2
    rw [List.range'_succ]
    by_cases hps : p = s
    · subst hps
      rw [List.erase_cons_head]
      rw [Nat.succ_sub_one]
      have hcong : (List.range' (p + 1) n).map
          (fun q => if p < q then q - 1 else q) =
          (List.range' (p + 1) n).map (fun q => q - 1) := by
        apply List.map_congr_left
        intro a ha
        have : p + 1 ≤ a := (List.mem_range'_1.mp ha).1
        simp [Nat.lt_of_lt_of_le (Nat.lt_succ_self p) this]
      rw [hcong, map_sub_one_range']
    · have hsp : s < p := Nat.lt_of_le_of_ne h1 fun h => hps h.symm
      rw [List.erase_cons_tail (by simp [Ne.symm hps])]
      cases n with
      | zero => omega
      | succ m =>
        rw [List.map_cons, if_neg (by omega)]
        rw [ih (s + 1) p hsp (by omega)]
        rw [Nat.succ_sub_one, Nat.succ_sub_one]
        rw [List.range'_succ]

/-! ## Behavioural lemmas about the embedded operations -/

/-- A successful `joinWaitlist` only appends one `waiting` entry at position
`count(waiting) + 1`; registrations and feedback are untouched. -/
theorem join_ok_spec {uid now : Nat} {ev? : Option Event} {s s' : State}
    {e : WEntry} (h : joinWaitlist uid now ev? s = Except.ok (s', e)) :
    s'.regs = s.regs ∧ s'.feedback = s.feedback ∧
    s'.waitlist = s.waitlist ++ [e] ∧
    e.position = countWaiting s + 1 ∧ e.status = WStatus.waiting ∧
    e.userId = uid := by
  cases ev? with
  | none => simp [joinWaitlist] at h
  | some ev =>
    by_cases hw : ev.waitlistEnabled
    · cases hfw : s.waitlist.find? (waitRowOf uid) with
      | some w => simp [joinWaitlist, hw, hfw] at h
      | none =>
        cases hfr : s.regs.find? (registeredUser uid) with
        | some r => simp [joinWaitlist, hw, hfw, hfr] at h
        | none =>
          by_cases hcap : atCapacity ev.waitlistCapacity (countWaiting s) = true
          · simp [joinWaitlist, hw, hfw, hfr, hcap] at h
          · simp [joinWaitlist, hw, hfw, hfr, hcap] at h
            obtain ⟨hs, he⟩ := h
            subst hs
            subst he
            simp
    · simp [joinWaitlist, hw] at h

/-- `confirmPayment` is the identity on the event state when the matched
registration is already `completed`. -/
theorem confirmPayment_completed_id {pid now : Nat} {s : State}
    {r : Registration}
    (hfind : s.regs.find? (intentOf pid) = some r)
    (hdone : r.paymentStatus = PayStatus.completed) :
    confirmPayment pid true now s = Except.ok (s, r) := by
  unfold confirmPayment
  simp [hfind, hdone]

/-- `atCapacity` unfolded to its defining case split. -/
theorem atCapacity_eq (m? : Option Nat) (n : Nat) :
    atCapacity m? n = (match m? with
      | some c => decide (c ≠ 0 ∧ c ≤ n)
      | none => false) := by
  cases m? <;> rfl

/-- A `created` outcome of the register route appends exactly one registration
row whose fields follow the event's `requiresApproval` / `isFree` flags. -/
theorem register_created_spec {uid : Nat} {role : Role} {g now : Nat}
    {ev : Event} {s s' : State} {st : RegStatus}
    (h : registerForEvent uid role g now (some ev) s =
      (RegisterResult.created st, s')) :
    ∃ r, s'.regs = s.regs ++ [r] ∧ s'.waitlist = s.waitlist ∧
      s'.feedback = s.feedback ∧ r.userId = uid ∧
      r.status = (if ev.requiresApproval then RegStatus.pending
                  else RegStatus.registered) ∧
      st = r.status ∧
      r.paymentStatus = (if ev.isFree then PayStatus.notRequired
                         else PayStatus.pending) ∧
      r.paymentAmount = ev.price := by
  by_cases hopen : ev.status = EvStatus.completed ∨ ev.status = EvStatus.cancelled
  · simp [registerForEvent, hopen] at h
  · by_cases hmem : ev.memberOnly ∧ role ≠ Role.member ∧ role ≠ Role.admin
    · simp [registerForEvent, hopen, hmem] at h
    · by_cases hdl : pastDeadline ev.registrationDeadline now = true
      · simp [registerForEvent, hopen, hmem, hdl] at h
      · cases hfx : s.regs.find? (byUser uid) with
        | some r =>
          by_cases hrc : r.status = RegStatus.cancelled
          · simp [registerForEvent, hopen, hmem, hdl, hfx, hrc] at h
          · simp [registerForEvent, hopen, hmem, hdl, hfx, hrc] at h
        | none =>
          by_cases hcap : atCapacity ev.maxAttendees (countRegistered s) = true
          · by_cases hwl : ev.waitlistEnabled
            · cases hjoin : joinWaitlist uid now (some ev) s with
              | ok p =>
                simp [registerForEvent, hopen, hmem, hdl, hfx, hcap, hwl,
                  hjoin] at h
              | error e =>
                simp [registerForEvent, hopen, hmem, hdl, hfx, hcap, hwl,
                  hjoin] at h
            · simp [registerForEvent, hopen, hmem, hdl, hfx, hcap, hwl] at h
          · simp [registerForEvent, hopen, hmem, hdl, hfx, hcap] at h
            obtain ⟨hst, hs⟩ := h
            subst hs
            subst hst
            exact ⟨_, rfl, rfl, rfl, rfl, rfl, rfl, rfl, rfl⟩

/-! ## Claim C6 -/

/-- C6: the displayed event status is `cancelled` exactly when the stored
status is `cancelled`, and otherwise is `upcoming` / `ongoing` / `completed`
as the current time falls before, inside or after the interval from
`startDate` to the (defaulted) end date — a pure function of
`(now, startDate, endDate, cancelled flag)`. -/
theorem c6_calculateEventStatus_spec (st : EvStatus) (sd : Nat)
    (ed : Option Nat) (now : Nat) :
    calculateEventStatus st sd ed now =
      specComputedStatus (decide (st = EvStatus.cancelled)) sd
        (ed.getD (sd + 24 * 60 * 60 * 1000)) now := by
  unfold calculateEventStatus specComputedStatus
  split_ifs <;> first | rfl | omega | simp_all

/-! ## Claim C1 -/

/-- One safe C1 step never pushes the `registered` count past a positive
`maxAttendees`: fresh registration and offer acceptance re-check capacity,
and the allowed confirm steps do not change the count. -/
theorem c1_step (ev : Event) (N : Nat) (hN : ev.maxAttendees = some N)
    (hpos : 0 < N) (s : State) (op : Op) (hsafe : c1SafeOp s op = true)
    (hcount : countRegistered s ≤ N) :
    countRegistered (applyOp (some ev) s op) ≤ N := by
  cases op with
  | register uid role g now =>
    simp only [applyOp]
    by_cases hopen : ev.status = EvStatus.completed ∨ ev.status = EvStatus.cancelled
    · simpa [registerForEvent, hopen] using hcount
    · by_cases hmem : ev.memberOnly ∧ role ≠ Role.member ∧ role ≠ Role.admin
      · simpa [registerForEvent, hopen, hmem] using hcount
      · by_cases hdl : pastDeadline ev.registrationDeadline now = true
        · simpa [registerForEvent, hopen, hmem, hdl] using hcount
        · cases hfx : s.regs.find? (byUser uid) with
          | some r =>
            have hnc : ¬ r.status = RegStatus.cancelled := by
              simpa [c1SafeOp, hfx] using hsafe
            simpa [registerForEvent, hopen, hmem, hdl, hfx, hnc] using hcount
          | none =>
            by_cases hcap : atCapacity ev.maxAttendees (countRegistered s) = true
            · by_cases hwl : ev.waitlistEnabled
              · cases hjoin : joinWaitlist uid now (some ev) s with
                | ok p =>
                  obtain ⟨s', e⟩ := p
                  have hregs := (join_ok_spec hjoin).1
                  have : countRegistered s' = countRegistered s := by
                    simp [countRegistered, hregs]
                  simpa [registerForEvent, hopen, hmem, hdl, hfx, hcap, hwl,
                    hjoin, this] using hcount
                | error e =>
                  simpa [registerForEvent, hopen, hmem, hdl, hfx, hcap, hwl,
                    hjoin] using hcount
              · simpa [registerForEvent, hopen, hmem, hdl, hfx, hcap, hwl]
                  using hcount
            · have hlt : (s.regs.filter isRegistered).length < N := by
                rw [hN] at hcap
                simp only [atCapacity, decide_eq_true_eq] at hcap
                have : ¬ (N ≠ 0 ∧ N ≤ countRegistered s) := hcap
                simp only [countRegistered] at this ⊢
                omega
              have hcap2 : ¬ atCapacity ev.maxAttendees
                  (List.filter isRegistered s.regs).length = true := by
                simpa [countRegistered] using hcap
              by_cases hra : ev.requiresApproval
              · simp [registerForEvent, hopen, hmem, hdl, hfx, hcap2, hra,
                  countRegistered, List.filter_append, isRegistered]
                omega
              · simp [registerForEvent, hopen, hmem, hdl, hfx, hcap2, hra,
                  countRegistered, List.filter_append, isRegistered]
                omega
  | confirm pid intentSucceeded now =>
    simp only [applyOp]
    cases hc : confirmPayment pid intentSucceeded now s with
    | error e => exact hcount
    | ok p =>
      obtain ⟨s', r⟩ := p
      show countRegistered s' ≤ N
      cases hfind : s.regs.find? (intentOf pid) with
      | none =>
        cases intentSucceeded with
        | false => simp [confirmPayment] at hc
        | true => simp [confirmPayment, hfind] at hc
      | some r₀ =>
        have hs : r₀.status = RegStatus.registered ∨
            r₀.paymentStatus = PayStatus.completed := by
          simpa [c1SafeOp, hfind] using hsafe
        cases intentSucceeded with
        | false => simp [confirmPayment] at hc
        | true =>
          by_cases hdone : r₀.paymentStatus = PayStatus.completed
          · have heq := (confirmPayment_completed_id hfind
              hdone).symm.trans hc
            simp only [Except.ok.injEq, Prod.mk.injEq] at heq
            obtain ⟨hs1, -⟩ := heq
            subst hs1
            exact hcount
          · simp [confirmPayment, hfind, hdone] at hc
            obtain ⟨hs1, -⟩ := hc
            subst hs1
            have hst : r₀.status = RegStatus.registered :=
              hs.resolve_right hdone
            have hlen := length_filter_updateFirst isRegistered
              (fun _ =>
                { r₀ with paymentStatus := PayStatus.completed,
                          paidAt := some now, status := RegStatus.registered })
              hfind (by simp [isRegistered, hst])
            simpa [countRegistered, hlen] using hcount
  | accept uid now =>
    simp only [applyOp]
    cases hfw : s.waitlist.find? (offeredOf uid) with
    | none => simpa [acceptOffer, hfw] using hcount
    | some w =>
      by_cases hpd : pastDeadline w.expiresAt now = true
      · simpa [acceptOffer, hfw, hpd, countRegistered] using hcount
      · by_cases hcap : atCapacity ev.maxAttendees (countRegistered s) = true
        · simpa [acceptOffer, hfw, hpd, hcap] using hcount
        · cases hdup : s.regs.find? (byUser uid) with
          | some r => simpa [acceptOffer, hfw, hpd, hcap, hdup] using hcount
          | none =>
            have hlt : (s.regs.filter isRegistered).length < N := by
              rw [hN] at hcap
              simp only [atCapacity, decide_eq_true_eq] at hcap
              have : ¬ (N ≠ 0 ∧ N ≤ countRegistered s) := hcap
              simp only [countRegistered] at this ⊢
              omega
            have hcap2 : ¬ atCapacity ev.maxAttendees
                (List.filter isRegistered s.regs).length = true := by
              simpa [countRegistered] using hcap
            simp [acceptOffer, hfw, hpd, hcap2, hdup, countRegistered,
              List.filter_append, isRegistered, newWaitlistRegistration]
            omega
  | cancel uid stripeOk now => simp [c1SafeOp] at hsafe
  | join uid now => simp [c1SafeOp] at hsafe
  | leave uid => simp [c1SafeOp] at hsafe
  | promote uid now => simp [c1SafeOp] at hsafe

/-- C1 counterexample: with `maxAttendees = 1` and user 2 holding the only
seat, user 1's re-registration reactivates their cancelled row to
`registered` with no capacity check, pushing the count to 2 — the claim's
bound fails under its own operation set. -/
theorem c1_counterexample :
    evC1.maxAttendees = some 1 ∧ countRegistered sC1 ≤ 1 ∧
    1 < countRegistered
      (applyOp (some evC1) sC1 (Op.register 1 Role.member 0 5)) := by
  decide

/-- C1 (amended): the count of `registered` rows stays at or below a positive
`maxAttendees = N` along every sequential trace of the claim's operations in
which no register step reactivates a cancelled registration and no
confirm-payment step changes a row whose status is not already `registered`. -/
theorem c1_capacity_preserved_amended (ev : Event) (N : Nat)
    (hN : ev.maxAttendees = some N) (hpos : 0 < N) (s : State) (ops : List Op)
    (htrace : c1Trace (some ev) s ops = true) (hcount : countRegistered s ≤ N) :
    countRegistered (ops.foldl (applyOp (some ev)) s) ≤ N := by
  induction ops generalizing s with
  | nil => simpa using hcount
  | cons op ops ih =>
    simp only [c1Trace, Bool.and_eq_true] at htrace
    exact ih _ htrace.2 (c1_step ev N hN hpos s op htrace.1 hcount)

/-- Witness for C1 (amended): a fresh registration, a payment confirmation
and a second registration attempt on a one-seat event keep the count at 1. -/
theorem c1_capacity_preserved_amended_witness :
    countRegistered
      (([Op.register 3 Role.member 0 5, Op.confirm 11 true 6,
         Op.register 4 Role.member 0 7]).foldl (applyOp (some evC1)) sEmpty)
      ≤ 1 :=
  c1_capacity_preserved_amended evC1 1 rfl (by omega) sEmpty _
    (by decide) (by decide)

/-! ## Claim C2 -/

/-- Decrementing a position leaves the row's status alone. -/
theorem isWaiting_shiftDown (p : Nat) (x : WEntry) :
    isWaiting (shiftDown p x) = isWaiting x := by
  unfold shiftDown isWaiting
  split_ifs <;> rfl

/-- Removing one occurrence of `p` from a permutation of {1..k} and closing
the gap yields a permutation of {1..k-1}. -/
theorem perm_erase_shift {l : List Nat} {k p : Nat}
    (h : (p :: l).Perm (List.range' 1 k)) :
    (l.map (fun q => if p < q then q - 1 else q)).Perm
      (List.range' 1 (k - 1)) := by
  have hp : p ∈ List.range' 1 k := h.mem_iff.mp (List.mem_cons_self p l)
  have h2 : l.Perm ((List.range' 1 k).erase p) :=
    (h.trans (List.perm_cons_erase hp)).cons_inv
  have h3 := h2.map (fun q => if p < q then q - 1 else q)
  rwa [erase_map_range' k 1 p (List.mem_range'_1.mp hp).1
    (by have := (List.mem_range'_1.mp hp).2; omega)] at h3

/-- Positions of waiting rows after the `$inc: -1` update, as a map over the
old positions. -/
theorem posmap_shift (p : Nat) (l : List WEntry) :
    ((l.filter isWaiting).map (shiftDown p)).map WEntry.position =
      ((l.filter isWaiting).map WEntry.position).map
        (fun q => if p < q then q - 1 else q) := by
  rw [List.map_map, List.map_map]
  apply List.map_congr_left
  intro x hx
  have hxW := List.of_mem_filter hx
  simp only [isWaiting, decide_eq_true_eq] at hxW
  simp only [Function.comp, shiftDown, hxW, and_true]
  split_ifs <;> rfl

/-- `joinWaitlist` preserves the contiguity of the waiting positions. -/
theorem join_contiguous {uid now : Nat} {ev? : Option Event} {s : State}
    (h : contiguous s) : contiguous (applyOp ev? s (Op.join uid now)) := by
  simp only [applyOp]
  cases hj : joinWaitlist uid now ev? s with
  | error e => exact h
  | ok p =>
    obtain ⟨s', e⟩ := p
    show contiguous s'
    obtain ⟨-, -, hwl, hpos, hst, -⟩ := join_ok_spec hj
    have hcnt : countWaiting s = (posList s).length := by
      simp [countWaiting, posList]
    have hplist : posList s' = posList s ++ [(posList s).length + 1] := by
      simp [posList, hwl, List.filter_append, List.filter_cons, isWaiting,
        hst, hpos, hcnt]
    unfold contiguous
    rw [hplist]
    have hlen : (posList s ++ [(posList s).length + 1]).length =
        (posList s).length + 1 := by simp
    rw [hlen, List.range'_1_concat, Nat.add_comm 1 (posList s).length]
    exact h.append (List.Perm.refl _)

/-- A successful `leaveWaitlist` erases the found row and shifts the later
waiting positions down. -/
theorem leave_ok_spec {uid : Nat} {s s' : State} {w : WEntry}
    (hfw : s.waitlist.find? (waitingOf uid) = some w)
    (hl : leaveWaitlist uid s = Except.ok s') :
    s'.waitlist = (eraseFirst (waitingOf uid) s.waitlist).map
      (shiftDown w.position) := by
  simp [leaveWaitlist, hfw] at hl
  subst hl
  rfl

/-- `leaveWaitlist` preserves the contiguity of the waiting positions: the
deleted row's position is removed and all later waiting rows shift down. -/
theorem leave_contiguous {uid : Nat} {ev? : Option Event} {s : State}
    (h : contiguous s) : contiguous (applyOp ev? s (Op.leave uid)) := by
  simp only [applyOp]
  cases hl : leaveWaitlist uid s with
  | error e => exact h
  | ok s' =>
    show contiguous s'
    cases hfw : s.waitlist.find? (waitingOf uid) with
    | none => simp [leaveWaitlist, hfw] at hl
    | some w =>
      have hwl' := leave_ok_spec hfw hl
      obtain ⟨l₁, l₂, hdec, -, herase⟩ := eraseFirst_decomp hfw
      have hwW : isWaiting w = true := by
        have := List.find?_some hfw
        simp only [waitingOf, decide_eq_true_eq] at this
        simp [isWaiting, this.2]
      have hps : posList s =
          ((l₁.filter isWaiting).map WEntry.position) ++
            w.position :: ((l₂.filter isWaiting).map WEntry.position) := by
        simp [posList, hdec, List.filter_append, List.filter_cons, hwW]
      have hcontig : (w.position ::
          (((l₁.filter isWaiting).map WEntry.position) ++
           ((l₂.filter isWaiting).map WEntry.position))).Perm
          (List.range' 1 ((((l₁.filter isWaiting).map WEntry.position) ++
            w.position :: ((l₂.filter isWaiting).map WEntry.position)).length)) := by
        have h0 := h
        unfold contiguous at h0
        rw [hps] at h0
        exact List.perm_middle.symm.trans h0
      have hkey := perm_erase_shift hcontig
      show ((s'.waitlist.filter isWaiting).map WEntry.position).Perm
        (List.range' 1
          ((s'.waitlist.filter isWaiting).map WEntry.position).length)
      rw [hwl', filter_map_of_preserve (isWaiting_shiftDown w.position),
        posmap_shift, herase, List.filter_append, List.map_append]
      have hlen : (((((l₁.filter isWaiting).map WEntry.position) ++
          ((l₂.filter isWaiting).map WEntry.position)).map
          (fun q => if w.position < q then q - 1 else q)).length) =
          ((((l₁.filter isWaiting).map WEntry.position) ++
            w.position :: ((l₂.filter isWaiting).map WEntry.position)).length)
            - 1 := by
        simp
      rw [hlen]
      exact hkey

/-- C2 counterexample: join user 1, join user 2, promote user 1 — the
`waiting` rows are then user 2 alone at position 2, not {1}: promotion
removes a row from `waiting` without renumbering. -/
theorem c2_counterexample :
    sEmpty.waitlist = [] ∧
    ¬ contiguous (([Op.join 1 5, Op.join 2 6, Op.promote 1 7]).foldl
      (applyOp (some evW)) sEmpty) := by
  decide

/-- C2 (amended): the multiset of `waiting` positions stays exactly
{1..count} along every sequence of joinWaitlist and leaveWaitlist operations
(from an empty waitlist, or any state satisfying the invariant);
promoteFromWaitlist breaks it by leaving the promoted row's position gap open
until acceptOffer renumbers — and permanently if the offer expires. -/
theorem c2_join_leave_contiguous (ev? : Option Event) (s : State)
    (ops : List Op) (hops : ops.all c2Op = true) (h : contiguous s) :
    contiguous (ops.foldl (applyOp ev?) s) := by
  induction ops generalizing s with
  | nil => simpa using h
  | cons op ops ih =>
    simp only [List.all_cons, Bool.and_eq_true] at hops
    refine ih _ hops.2 ?_
    cases op with
    | join uid now => exact join_contiguous h
    | leave uid => exact leave_contiguous h
    | register uid role g now => simp [c2Op] at hops
    | cancel uid stripeOk now => simp [c2Op] at hops
    | confirm pid intentSucceeded now => simp [c2Op] at hops
    | promote uid now => simp [c2Op] at hops
    | accept uid now => simp [c2Op] at hops

/-- Witness for C2 (amended): two joins and a leave keep positions {1..count}
on an empty waitlist. -/
theorem c2_join_leave_contiguous_witness :
    contiguous (([Op.join 1 5, Op.join 2 6, Op.leave 1]).foldl
      (applyOp (some evW)) sEmpty) :=
  c2_join_leave_contiguous (some evW) sEmpty _ (by decide) (by decide)

/-! ## Claim C3 -/

/-- C3 counterexample: on a paid (`isFree = false`) event without approval
requirement, the register handler creates the row with status `registered`
while its `paymentStatus` is still `pending` — the status is not gated on
payment completion. -/
theorem c3_counterexample :
    evPaid.isFree = false ∧
    ((registerForEvent 1 Role.member 0 5 (some evPaid) sEmpty).2.regs.map
        (fun r => (r.status, r.paymentStatus))) =
      [(RegStatus.registered, PayStatus.pending)] :=
  ⟨rfl, rfl⟩

/-- C3 (amended): on a paid event the register handler creates the row with
`paymentStatus = pending` and with status `pending` exactly when the event
requires approval (otherwise `registered` immediately); `confirmPayment`
returns a row with `paymentStatus = completed` and, when it actually performs
the update, sets the status to `registered`. -/
theorem c3_payment_states_amended (ev : Event) (uid : Nat) (role : Role)
    (g now : Nat) (s : State) (hfree : ev.isFree = false) :
    (∀ st s', registerForEvent uid role g now (some ev) s =
        (RegisterResult.created st, s') →
      ∃ r, s'.regs = s.regs ++ [r] ∧ r.userId = uid ∧
        r.paymentStatus = PayStatus.pending ∧ r.status = st ∧
        st = (if ev.requiresApproval then RegStatus.pending
              else RegStatus.registered)) ∧
    (∀ pid now' s₂ s' r, confirmPayment pid true now' s₂ = Except.ok (s', r) →
      r.paymentStatus = PayStatus.completed ∧ r ∈ s'.regs ∧
      (∀ r₀, s₂.regs.find? (intentOf pid) = some r₀ →
        r₀.paymentStatus ≠ PayStatus.completed →
        r.status = RegStatus.registered)) := by
  constructor
  · intro st s' h
    obtain ⟨r, h1, _, _, h4, h5, h6, h7, _⟩ := register_created_spec h
    refine ⟨r, h1, h4, ?_, h6.symm, h6 ▸ h5⟩
    rw [h7, if_neg (by simp [hfree])]
  · intro pid now' s₂ s' r h
    cases hfind : s₂.regs.find? (intentOf pid) with
    | none => simp [confirmPayment, hfind] at h
    | some r₀ =>
      by_cases hdone : r₀.paymentStatus = PayStatus.completed
      · rw [confirmPayment_completed_id hfind hdone] at h
        simp only [Except.ok.injEq, Prod.mk.injEq] at h
        obtain ⟨hs, hr⟩ := h
        subst hs
        subst hr
        refine ⟨hdone, List.mem_of_find?_eq_some hfind, ?_⟩
        intro r₁ hf1 hnc
        cases hf1
        exact absurd hdone hnc
      · simp [confirmPayment, hfind, hdone] at h
        obtain ⟨hs, hr⟩ := h
        subst hs
        subst hr
        refine ⟨rfl, ?_, fun _ _ _ => rfl⟩
        exact mem_updateFirst_of_find? hfind

/-- Witness for C3 (amended) on a concrete paid event. -/
theorem c3_payment_states_amended_witness :
    ∃ r, (registerForEvent 1 Role.member 0 5 (some evPaid) sEmpty).2.regs =
        sEmpty.regs ++ [r] ∧ r.paymentStatus = PayStatus.pending := by
  obtain ⟨r, h1, _, h3, _⟩ :=
    (c3_payment_states_amended evPaid 1 Role.member 0 5 sEmpty rfl).1
      RegStatus.registered
      (registerForEvent 1 Role.member 0 5 (some evPaid) sEmpty).2 rfl
  exact ⟨r, h1, h3⟩

/-! ## Claim C4 -/

/-- C4 counterexample: user 1 holds only a dead (`declined`) waitlist row, no
registration at all, the event's waitlist is enabled and has no capacity
limit — yet `joinWaitlist` fails, because the code blocks on ANY existing
waitlist row regardless of status. -/
theorem c4_counterexample :
    joinWaitlist 1 5 (some evW) sDeclined = Except.error Err.alreadyOnWaitlist ∧
    evW.waitlistEnabled = true ∧ evW.waitlistCapacity = none ∧
    sDeclined.regs = [] ∧
    sDeclined.waitlist.all (fun w =>
      decide (w.status ≠ WStatus.waiting ∧ w.status ≠ WStatus.offered)) = true :=
  ⟨rfl, rfl, rfl, rfl, rfl⟩

/-- C4 (amended): `joinWaitlist` fails exactly when the event is missing, its
waitlist is disabled, the user holds any waitlist row (of whatever status),
the user holds a registration with status `registered`, or the `waiting`
count has reached a positive configured capacity; otherwise it appends
exactly one `waiting` row at position `count(waiting) + 1` and changes
nothing else. -/
theorem c4_joinWaitlist_spec_amended (uid now : Nat) (ev? : Option Event)
    (s : State) :
    ((∃ e, joinWaitlist uid now ev? s = Except.error e) ↔
      joinRejected ev? uid s = true) ∧
    (∀ s' e, joinWaitlist uid now ev? s = Except.ok (s', e) →
      e.userId = uid ∧ e.status = WStatus.waiting ∧
      e.position = countWaiting s + 1 ∧
      s'.waitlist = s.waitlist ++ [e] ∧ s'.regs = s.regs ∧
      s'.feedback = s.feedback) := by
  constructor
  · cases ev? with
    | none => simp [joinWaitlist, joinRejected]
    | some ev =>
      by_cases hw : ev.waitlistEnabled
      · cases hfw : s.waitlist.find? (waitRowOf uid) with
        | some w =>
          have hany : s.waitlist.any (waitRowOf uid) = true :=
            List.any_eq_true.mpr
              ⟨w, List.mem_of_find?_eq_some hfw, List.find?_some hfw⟩
          constructor
          · intro _
            simp [joinRejected, hw, hany]
          · intro _
            exact ⟨Err.alreadyOnWaitlist, by simp [joinWaitlist, hw, hfw]⟩
        | none =>
          cases hfr : s.regs.find? (registeredUser uid) with
          | some r =>
            have hany : s.regs.any (registeredUser uid) = true :=
              List.any_eq_true.mpr
                ⟨r, List.mem_of_find?_eq_some hfr, List.find?_some hfr⟩
            constructor
            · intro _
              simp [joinRejected, hw, hany]
            · intro _
              exact ⟨Err.alreadyRegisteredForEvent,
                by simp [joinWaitlist, hw, hfw, hfr]⟩
          | none =>
            have hanyw : s.waitlist.any (waitRowOf uid) = false :=
              List.any_eq_false.mpr (by
                intro x hx
                simpa using List.find?_eq_none.mp hfw x hx)
            have hanyr : s.regs.any (registeredUser uid) = false :=
              List.any_eq_false.mpr (by
                intro x hx
                simpa using List.find?_eq_none.mp hfr x hx)
            by_cases hcap : atCapacity ev.waitlistCapacity (countWaiting s) = true
            · have hcap' : (match ev.waitlistCapacity with
                  | some c => decide (c ≠ 0 ∧ c ≤ countWaiting s)
                  | none => false) = true := by
                rw [← atCapacity_eq]
                exact hcap
              constructor
              · intro _
                simp only [joinRejected, hw]
                rw [hcap']
                simp
              · intro _
                exact ⟨Err.waitlistFull,
                  by simp [joinWaitlist, hw, hfw, hfr, hcap]⟩
            · have hcap' : (match ev.waitlistCapacity with
                  | some c => decide (c ≠ 0 ∧ c ≤ countWaiting s)
                  | none => false) = false := by
                rw [← atCapacity_eq]
                simpa using hcap
              constructor
              · rintro ⟨e, he⟩
                simp [joinWaitlist, hw, hfw, hfr, hcap] at he
              · intro hrej
                exfalso
                simp only [joinRejected, hw] at hrej
                rw [hcap'] at hrej
                simp [hanyw, hanyr] at hrej
      · simp [joinWaitlist, joinRejected, hw]
  · intro s' e h
    have := join_ok_spec h
    tauto

/-- Witness for C4 (amended): a fresh user joins an empty enabled waitlist at
position 1. -/
theorem c4_joinWaitlist_spec_amended_witness :
    ∃ s' e, joinWaitlist 7 5 (some evW) sEmpty = Except.ok (s', e) ∧
      e.position = countWaiting sEmpty + 1 ∧ e.status = WStatus.waiting := by
  cases hj : joinWaitlist 7 5 (some evW) sEmpty with
  | error e =>
    have h := (c4_joinWaitlist_spec_amended 7 5 (some evW) sEmpty).1.mp ⟨e, hj⟩
    exact absurd h (by decide)
  | ok p =>
    obtain ⟨s', e⟩ := p
    have h := (c4_joinWaitlist_spec_amended 7 5 (some evW) sEmpty).2 s' e hj
    exact ⟨s', e, rfl, h.2.2.1, h.2.1⟩


/-! ## Claim C5 -/

/-- C5 counterexample: user 1 holds a live (unexpired) offer, the two-seat
event has ample capacity, yet `acceptOffer` creates no registration, marks
nothing `accepted` and renumbers nothing — user 1's leftover cancelled
registration row makes the insert hit the unique `(eventId, userId)` index,
and the uncaught duplicate-key error aborts the whole acceptance.  The state
is reachable sequentially: register, cancel, join the waitlist (only
`registered` rows block joining), get promoted. -/
theorem c5_counterexample :
    (sC5dup.waitlist.find? (offeredOf 1)).isSome = true ∧
    pastDeadline (some 100) 5 = false ∧
    evC5.maxAttendees = some 2 ∧ countRegistered sC5dup = 0 ∧
    sC5dup.regs = [mkReg 1 RegStatus.cancelled] ∧
    acceptOffer 1 5 (some evC5) sC5dup =
      (Except.error Err.duplicateRegistration, sC5dup) :=
  ⟨rfl, rfl, rfl, rfl, rfl, rfl⟩

/-- C5 (amended): `acceptOffer` demands an `offered` row; a lapsed
`expiresAt` marks the row `expired` and fails; with the offer alive it
re-checks capacity (failing once `registered` count reaches a positive
`maxAttendees`); then, when the user already holds any registration row for
the event, the insert fails on the unique `(eventId, userId)` index and
nothing changes (the waitlist row stays `offered`); otherwise it appends a
`registered` EventRegistration of type `waitlist`, marks the row `accepted`
and decrements every `waiting` position above the accepted one.
`promoteFromWaitlist` stamps the offer with a 24-hour expiry. -/
theorem c5_acceptOffer_spec_amended (ev : Event) (m uid now : Nat) (s : State)
    (hmax : ev.maxAttendees = some m) (hm : 0 < m) :
    (s.waitlist.find? (offeredOf uid) = none →
      acceptOffer uid now (some ev) s = (Except.error Err.noActiveOffer, s)) ∧
    (∀ w, s.waitlist.find? (offeredOf uid) = some w →
      ∀ t, w.expiresAt = some t → t < now →
      acceptOffer uid now (some ev) s =
        (Except.error Err.offerExpired,
         { s with waitlist := (updateFirst (offeredOf uid) (fun x =>
            { x with status := WStatus.expired }) s.waitlist) })) ∧
    (∀ w, s.waitlist.find? (offeredOf uid) = some w →
      pastDeadline w.expiresAt now = false → m ≤ countRegistered s →
      acceptOffer uid now (some ev) s = (Except.error Err.eventFull, s)) ∧
    (∀ w, s.waitlist.find? (offeredOf uid) = some w →
      pastDeadline w.expiresAt now = false → countRegistered s < m →
      ∀ r₀, s.regs.find? (byUser uid) = some r₀ →
      acceptOffer uid now (some ev) s =
        (Except.error Err.duplicateRegistration, s)) ∧
    (∀ w, s.waitlist.find? (offeredOf uid) = some w →
      pastDeadline w.expiresAt now = false → countRegistered s < m →
      s.regs.find? (byUser uid) = none →
      acceptOffer uid now (some ev) s =
        (Except.ok (newWaitlistRegistration uid now ev),
         { regs := s.regs ++ [newWaitlistRegistration uid now ev]
           waitlist := ((updateFirst (offeredOf uid) (fun x =>
             { x with status := WStatus.accepted }) s.waitlist).map
             (shiftDown w.position))
           feedback := s.feedback }) ∧
      (newWaitlistRegistration uid now ev).status = RegStatus.registered ∧
      (newWaitlistRegistration uid now ev).registrationType = RegType.waitlist) ∧
    (∀ s', promoteFromWaitlist uid now (some ev) s = Except.ok s' →
      ∃ w' ∈ s'.waitlist, w'.userId = uid ∧ w'.status = WStatus.offered ∧
        w'.notified = true ∧
        w'.expiresAt = some (now + 24 * 60 * 60 * 1000)) := by
  refine ⟨?_, ?_, ?_, ?_, ?_, ?_⟩
  · intro hfw
    simp [acceptOffer, hfw]
  · intro w hfw t ht hlt
    have hpd : pastDeadline w.expiresAt now = true := by
      simp [pastDeadline, ht, hlt]
    simp [acceptOffer, hfw, hpd]
  · intro w hfw hpd hcnt
    have hcap : atCapacity ev.maxAttendees (countRegistered s) = true := by
      simp only [hmax, atCapacity, decide_eq_true_eq]
      omega
    simp [acceptOffer, hfw, hpd, hcap]
  · intro w hfw hpd hcnt r₀ hdup
    have hcap : atCapacity ev.maxAttendees (countRegistered s) = false := by
      simp only [hmax, atCapacity, decide_eq_false_iff_not]
      omega
    simp [acceptOffer, hfw, hpd, hcap, hdup]
  · intro w hfw hpd hcnt hdup
    have hcap : atCapacity ev.maxAttendees (countRegistered s) = false := by
      simp only [hmax, atCapacity, decide_eq_false_iff_not]
      omega
    refine ⟨?_, rfl, rfl⟩
    simp [acceptOffer, hfw, hpd, hcap, hdup]
  · intro s' hp
    cases hfw : s.waitlist.find? (waitingOf uid) with
    | none => simp [promoteFromWaitlist, hfw] at hp
    | some w =>
      by_cases hcap : atCapacity ev.maxAttendees (countRegistered s) = true
      · simp [promoteFromWaitlist, hfw, hcap] at hp
      · simp [promoteFromWaitlist, hfw, hcap] at hp
        subst hp
        refine ⟨_, mem_updateFirst_of_find? hfw, ?_, rfl, rfl, rfl⟩
        have := List.find?_some hfw
        simp [waitingOf] at this
        simp [this.1]

/-- Witness for C5 (amended): user 1's live offer on a two-seat event, with
no prior registration row, is accepted, creating a `registered` waitlist-type
registration. -/
theorem c5_acceptOffer_spec_amended_witness :
    acceptOffer 1 5 (some evC5) sC5 =
      (Except.ok (newWaitlistRegistration 1 5 evC5),
       { regs := sC5.regs ++ [newWaitlistRegistration 1 5 evC5]
         waitlist := ((updateFirst (offeredOf 1) (fun x =>
           { x with status := WStatus.accepted }) sC5.waitlist).map
           (shiftDown 1))
         feedback := sC5.feedback }) ∧
    (newWaitlistRegistration 1 5 evC5).registrationType = RegType.waitlist := by
  have h := (c5_acceptOffer_spec_amended evC5 2 1 5 sC5 rfl (by omega)).2.2.2.2.1
    ({ mkWe 1 1 WStatus.offered with expiresAt := some 100 }) rfl rfl
    (by decide) rfl
  exact ⟨h.1, h.2.2⟩

/-! ## Claim C7 -/

/-- C7 counterexample: the event is full (1 seat taken by user 2) and has the
waitlist enabled, user 1 holds no registration, yet the register request is
rejected with 400 and creates nothing, because user 1 already sits on the
waitlist and the inner `joinWaitlist` throws — the claim promises a success
response with a waitlist position whenever `waitlistEnabled` is true. -/
theorem c7_counterexample :
    registerForEvent 1 Role.member 0 5 (some evC7) sC7 =
      (RegisterResult.waitlistError Err.alreadyOnWaitlist, sC7) ∧
    RegisterResult.httpStatus
      (RegisterResult.waitlistError Err.alreadyOnWaitlist) = 400 ∧
    evC7.waitlistEnabled = true ∧ evC7.maxAttendees = some 1 ∧
    countRegistered sC7 = 1 ∧
    sC7.regs.find? (byUser 1) = none :=
  ⟨rfl, rfl, rfl, rfl, rfl, rfl⟩

/-- C7 (amended): when a user with no existing registration registers for a
full event (positive `maxAttendees` reached), no EventRegistration row is ever
created; with the waitlist disabled the request is a 400; with the waitlist
enabled the outcome follows `joinWaitlist` — a 200 with the waitlist position
when the join succeeds, and a 400 creating nothing when the join itself fails
(user already on the waitlist, or waitlist full). -/
theorem c7_capacity_reached_amended (ev : Event) (m uid : Nat) (role : Role)
    (g now : Nat) (s : State)
    (hopen : ¬ (ev.status = EvStatus.completed ∨ ev.status = EvStatus.cancelled))
    (hmem : ¬ (ev.memberOnly ∧ role ≠ Role.member ∧ role ≠ Role.admin))
    (hdl : pastDeadline ev.registrationDeadline now = false)
    (hnew : s.regs.find? (byUser uid) = none)
    (hmax : ev.maxAttendees = some m) (hm : 0 < m)
    (hfull : m ≤ countRegistered s) :
    ((registerForEvent uid role g now (some ev) s).2.regs = s.regs) ∧
    (ev.waitlistEnabled = false →
      registerForEvent uid role g now (some ev) s =
        (RegisterResult.fullNoWaitlist, s) ∧
      RegisterResult.httpStatus RegisterResult.fullNoWaitlist = 400) ∧
    (ev.waitlistEnabled = true →
      (∀ s' e, joinWaitlist uid now (some ev) s = Except.ok (s', e) →
        registerForEvent uid role g now (some ev) s =
          (RegisterResult.waitlisted e.position, s') ∧
        RegisterResult.httpStatus (RegisterResult.waitlisted e.position) = 200) ∧
      (∀ err, joinWaitlist uid now (some ev) s = Except.error err →
        registerForEvent uid role g now (some ev) s =
          (RegisterResult.waitlistError err, s) ∧
        RegisterResult.httpStatus (RegisterResult.waitlistError err) = 400)) := by
  have hcap : atCapacity ev.maxAttendees (countRegistered s) = true := by
    simp only [hmax, atCapacity, decide_eq_true_eq]
    omega
  refine ⟨?_, ?_, ?_⟩
  · by_cases hwl : ev.waitlistEnabled
    · cases hjoin : joinWaitlist uid now (some ev) s with
      | ok p =>
        obtain ⟨s', e⟩ := p
        have hregs := (join_ok_spec hjoin).1
        simp [registerForEvent, hopen, hmem, hdl, hnew, hcap, hwl, hjoin, hregs]
      | error e =>
        simp [registerForEvent, hopen, hmem, hdl, hnew, hcap, hwl, hjoin]
    · simp [registerForEvent, hopen, hmem, hdl, hnew, hcap, hwl]
  · intro hwl
    simp [registerForEvent, hopen, hmem, hdl, hnew, hcap, hwl,
      RegisterResult.httpStatus]
  · intro hwl
    constructor
    · intro s' e hjoin
      simp [registerForEvent, hopen, hmem, hdl, hnew, hcap, hwl, hjoin,
        RegisterResult.httpStatus]
    · intro err hjoin
      simp [registerForEvent, hopen, hmem, hdl, hnew, hcap, hwl, hjoin,
        RegisterResult.httpStatus]

/-- Witness for C7 (amended) at a full event where the join succeeds. -/
theorem c7_capacity_reached_amended_witness :
    ∃ s' e, joinWaitlist 1 5 (some evC7) sC7b = Except.ok (s', e) ∧
      registerForEvent 1 Role.member 0 5 (some evC7) sC7b =
        (RegisterResult.waitlisted e.position, s') := by
  have h := (c7_capacity_reached_amended evC7 1 1 Role.member 0 5 sC7b
    (by decide) (by decide) rfl rfl rfl (by omega) (by decide)).2.2 rfl
  refine ⟨_, _, rfl, ?_⟩
  exact (h.1 _ _ rfl).1

/-! ## Claim C8 -/

/-- C8: with a valid rating, a submission without a checked-in registration is
rejected with HTTP 403 and creates nothing; with a checked-in registration the
first submission creates exactly one feedback row, a repeat submission is
rejected with HTTP 400 and changes nothing, and the one-row-per-user invariant
is preserved by every submission. -/
theorem c8_feedback_spec (uid rating : Nat) (s : State)
    (hr : 1 ≤ rating ∧ rating ≤ 5)
    (hinv : (s.feedback.map Feedback.userId).Nodup) :
    ((submitFeedback uid rating s).2.feedback.map Feedback.userId).Nodup ∧
    (s.regs.find? (checkedInUser uid) = none →
      (submitFeedback uid rating s).1 = FeedbackResult.notCheckedIn ∧
      FeedbackResult.httpStatus (submitFeedback uid rating s).1 = 403 ∧
      (submitFeedback uid rating s).2 = s) ∧
    (∀ r, s.regs.find? (checkedInUser uid) = some r →
      s.feedback.find? (feedbackOf uid) = none →
      (submitFeedback uid rating s).1 = FeedbackResult.created ∧
      (submitFeedback uid rating s).2.feedback =
        s.feedback ++ [{ userId := uid, rating := rating, approved := true }]) ∧
    (∀ r f, s.regs.find? (checkedInUser uid) = some r →
      s.feedback.find? (feedbackOf uid) = some f →
      (submitFeedback uid rating s).1 = FeedbackResult.alreadySubmitted ∧
      FeedbackResult.httpStatus (submitFeedback uid rating s).1 = 400 ∧
      (submitFeedback uid rating s).2 = s) := by
  have hval : ¬ (rating = 0 ∨ rating < 1 ∨ 5 < rating) := by omega
  have hval2 : ¬ (rating = 0 ∨ 5 < rating) := by omega
  have hv0 : ¬ rating = 0 := by omega
  have hv5 : ¬ 5 < rating := by omega
  cases hfc : s.regs.find? (checkedInUser uid) with
  | none =>
    refine ⟨?_, ?_, ?_, ?_⟩
    · simp [submitFeedback, FeedbackResult.httpStatus, hval, hval2, hv0, hv5, hfc, hinv]
    · intro _
      simp [submitFeedback, FeedbackResult.httpStatus, hval, hval2, hv0, hv5, hfc]
    · intro r hr2 _
      cases hr2
    · intro r f hr2 _
      cases hr2
  | some r₀ =>
    cases hff : s.feedback.find? (feedbackOf uid) with
    | none =>
      have huid : uid ∉ s.feedback.map Feedback.userId := by
        intro hmem
        obtain ⟨f, hf, hfu⟩ := List.mem_map.mp hmem
        have := List.find?_eq_none.mp hff f hf
        simp [feedbackOf] at this
        exact this hfu
      refine ⟨?_, ?_, ?_, ?_⟩
      · simp [submitFeedback, FeedbackResult.httpStatus, hval, hval2, hv0, hv5, hfc, hff, List.nodup_append, hinv, huid]
      · intro hc
        cases hc
      · intro r _ _
        simp [submitFeedback, FeedbackResult.httpStatus, hval, hval2, hv0, hv5, hfc, hff]
      · intro r f _ hf2
        cases hf2
    | some f₀ =>
      refine ⟨?_, ?_, ?_, ?_⟩
      · simp [submitFeedback, FeedbackResult.httpStatus, hval, hval2, hv0, hv5, hfc, hff, hinv]
      · intro hc
        cases hc
      · intro r _ hf2
        cases hf2
      · intro r f _ _
        simp [submitFeedback, FeedbackResult.httpStatus, hval, hval2, hv0, hv5, hfc, hff]

/-- Witness for C8: user 1 is checked in, submits rating 5, and the row is
created exactly once. -/
theorem c8_feedback_spec_witness :
    (submitFeedback 1 5 sC8).1 = FeedbackResult.created ∧
    (submitFeedback 1 5 sC8).2.feedback =
      sC8.feedback ++ [{ userId := 1, rating := 5, approved := true }] ∧
    ((submitFeedback 1 5 sC8).2.feedback.map Feedback.userId).Nodup := by
  have h := c8_feedback_spec 1 5 sC8 (by omega) (by decide)
  have hcreated := h.2.2.1 ({ mkReg 1 RegStatus.attended with checkedIn := true })
    rfl rfl
  exact ⟨hcreated.1, hcreated.2, h.1⟩

/-! ## Claim C9 -/

/-- `processRefund` never succeeds when the external Stripe call fails. -/
theorem processRefund_stripeFail (r : Registration) (a : Option Nat)
    (now : Nat) (ev? : Option Event) (r' : Registration) :
    processRefund r a now false ev? ≠ Except.ok r' := by
  intro h
  unfold processRefund at h
  cases ev? <;> (repeat' (first | split at h | simp only [] at h)) <;> simp_all

/-- A successful `processRefund` only changes the payment fields of the row. -/
theorem processRefund_ok_fields {r : Registration} {a : Option Nat}
    {now : Nat} {so : Bool} {ev? : Option Event} {r' : Registration}
    (h : processRefund r a now so ev? = Except.ok r') :
    r'.userId = r.userId ∧ r'.status = r.status ∧
    r'.paymentStatus = PayStatus.refunded := by
  unfold processRefund at h
  cases ev? <;> (repeat' (first | split at h | simp only [] at h)) <;>
    (try (cases h; simp)) <;> simp_all

/-- `promoteFromWaitlist` never touches registrations or feedback. -/
theorem promote_ok_spec {uid now : Nat} {ev? : Option Event} {s s' : State}
    (h : promoteFromWaitlist uid now ev? s = Except.ok s') :
    s'.regs = s.regs ∧ s'.feedback = s.feedback := by
  cases hfw : s.waitlist.find? (waitingOf uid) with
  | none => simp [promoteFromWaitlist, hfw] at h
  | some w =>
    cases ev? with
    | none => simp [promoteFromWaitlist, hfw] at h
    | some ev =>
      by_cases hcap : atCapacity ev.maxAttendees (countRegistered s) = true
      · simp [promoteFromWaitlist, hfw, hcap] at h
      · simp [promoteFromWaitlist, hfw, hcap] at h
        subst h
        exact ⟨rfl, rfl⟩

/-- The trailing waitlist promotion of the cancel handler never touches
registrations or feedback. -/
theorem promoteNext_preserves (now : Nat) (ev : Event) (s : State) :
    (promoteNext now ev s).regs = s.regs ∧
    (promoteNext now ev s).feedback = s.feedback := by
  unfold promoteNext
  by_cases hwl : ev.waitlistEnabled
  · cases hmw : minWaiting s.waitlist with
    | none => simp [hwl, hmw]
    | some nextInLine =>
      cases hp : promoteFromWaitlist nextInLine.userId now (some ev) s with
      | ok s' => simpa [hwl, hmw, hp] using promote_ok_spec hp
      | error e => simp [hwl, hmw, hp]
  · simp [hwl]

/-- A failed Stripe call means the swallowed refund attempt yields nothing. -/
theorem refundAttempt_stripeFail (reg : Registration) (now : Nat)
    (ev? : Option Event) : refundAttempt reg now false ev? = none := by
  unfold refundAttempt
  split_ifs with hc
  · cases hp : processRefund reg none now false ev? with
    | ok r' => exact absurd hp (processRefund_stripeFail reg none now ev? r')
    | error e => simp [hp]
  · rfl

/-- Whatever the refund attempt returns has the user and status of `reg`. -/
theorem refundAttempt_getD_fields (reg : Registration) (now : Nat)
    (stripeOk : Bool) (ev? : Option Event) :
    ((refundAttempt reg now stripeOk ev?).getD reg).userId = reg.userId ∧
    ((refundAttempt reg now stripeOk ev?).getD reg).status = reg.status := by
  unfold refundAttempt
  split_ifs with hc
  · cases hp : processRefund reg none now stripeOk ev? with
    | ok r' =>
      have := processRefund_ok_fields hp
      simp [hp, this.1, this.2.1]
    | error e => simp [hp]
  · simp

/-- C9: when the caller holds a `registered` registration and the event
exists, cancellation always answers 200 with `cancelledOk`, the row becomes
`cancelled` with `cancelledAt` set, and a failed Stripe refund only means
`refundProcessed = false` — the cancellation is never rolled back. -/
theorem c9_cancellation_resilient (uid : Nat) (reason : Option String)
    (now : Nat) (stripeOk : Bool) (ev : Event) (s : State) (reg : Registration)
    (hfind : s.regs.find? (registeredUser uid) = some reg) :
    ∃ rp s', cancelRegistration uid reason now stripeOk (some ev) s =
        (CancelResult.cancelledOk rp, s') ∧
      CancelResult.httpStatus (CancelResult.cancelledOk rp) = 200 ∧
      (∃ r' ∈ s'.regs, r'.userId = uid ∧ r'.status = RegStatus.cancelled ∧
        r'.cancelledAt = some now) ∧
      (stripeOk = false → rp = false) := by
  have huid : reg.userId = uid := by
    have := List.find?_some hfind
    simp [registeredUser] at this
    exact this.1
  have heq : cancelRegistration uid reason now stripeOk (some ev) s =
      (CancelResult.cancelledOk
        (refundAttempt reg now stripeOk (some ev)).isSome,
       promoteNext now ev
        { s with regs := (updateFirst (registeredUser uid) (fun _ =>
            { ((refundAttempt reg now stripeOk (some ev)).getD reg) with
              status := RegStatus.cancelled, cancelledAt := some now,
              cancellationReason := reason }) s.regs) }) := by
    unfold cancelRegistration
    rw [hfind]
  refine ⟨_, _, heq, rfl, ?_, ?_⟩
  · rw [(promoteNext_preserves now ev _).1]
    refine ⟨_, mem_updateFirst_of_find? hfind, ?_, rfl, rfl⟩
    simpa [(refundAttempt_getD_fields reg now stripeOk (some ev)).1] using huid
  · intro hso
    subst hso
    simp [refundAttempt_stripeFail]

/-- Witness for C9: user 1 cancels a paid registration while Stripe fails; the
row is cancelled anyway and `refundProcessed` is false. -/
theorem c9_cancellation_resilient_witness :
    ∃ rp s', cancelRegistration 1 none 5 false (some evW) sC9 =
        (CancelResult.cancelledOk rp, s') ∧ rp = false ∧
      (∃ r' ∈ s'.regs, r'.userId = 1 ∧ r'.status = RegStatus.cancelled ∧
        r'.cancelledAt = some 5) := by
  obtain ⟨rp, s', heq, _, hrow, hfail⟩ :=
    c9_cancellation_resilient 1 none 5 false evW sC9
      ({ mkReg 1 RegStatus.registered with
         paymentStatus := PayStatus.completed,
         paymentAmount := some 50,
         stripePaymentIntentId := some 11 }) rfl
  exact ⟨rp, s', heq, hfail rfl, hrow⟩

/-! ## Claim C10 -/

/-- C10: `confirmPayment` is idempotent — a second confirmation of the same
succeeded payment intent returns the same registration and leaves the state
exactly as the first confirmation left it. -/
theorem c10_confirmPayment_idempotent (pid now now₂ : Nat) (s s' : State)
    (r : Registration) (h : confirmPayment pid true now s = Except.ok (s', r)) :
    confirmPayment pid true now₂ s' = Except.ok (s', r) := by
  cases hfind : s.regs.find? (intentOf pid) with
  | none => simp [confirmPayment, hfind] at h
  | some r₀ =>
    by_cases hdone : r₀.paymentStatus = PayStatus.completed
    · rw [confirmPayment_completed_id hfind hdone] at h
      simp only [Except.ok.injEq, Prod.mk.injEq] at h
      obtain ⟨hs, hr⟩ := h
      subst hs
      subst hr
      exact confirmPayment_completed_id hfind hdone
    · simp [confirmPayment, hfind, hdone] at h
      obtain ⟨hs, hr⟩ := h
      have hp₀ := List.find?_some hfind
      have hf2 := find?_updateFirst_self (fun _ =>
        { r₀ with paymentStatus := PayStatus.completed,
                  paidAt := some now, status := RegStatus.registered })
        hfind (by simpa [intentOf] using hp₀)
      subst hs
      subst hr
      exact confirmPayment_completed_id hf2 rfl

/-- Witness for C10 at a concrete pending paid registration. -/
theorem c10_confirmPayment_idempotent_witness :
    confirmPayment 11 true 500 sC10 = Except.ok (sC10', rC10') ∧
      confirmPayment 11 true 900 sC10' = Except.ok (sC10', rC10') :=
  ⟨rfl, c10_confirmPayment_idempotent 11 500 900 sC10 sC10' rC10' rfl⟩

end Nareis
